import Mathlib

/-!
Verification of the "AI Shorts Studio" project-store service.

The repository holds two parallel implementations of the same HTTP surface:
`src/main.py` (embedded below in namespace `V1`) and `src/backend/main.py`
(namespace `V2`).  Both keep four process-local dictionaries keyed by a
project-id string: `PROJECTS`, `SCRIPTS`, `ASSETS`, `RENDERS`.

Python dictionaries are embedded as association lists (`List (String × α)`)
together with insert/lookup operations that reproduce dict-assignment
(replace in place, append when the key is fresh), `d.get k`,
`d.get k default` and `k in d`.

All segment timestamps produced by the code are whole-number seconds
(`float(t)` of an integer `t`), so they are embedded as `Nat`.
-/

deriving instance DecidableEq for Except

/-- Python dict assignment `d[k] = v`: replace the entry in place if the key
is present, otherwise append it. -/
def dinsert {α : Type} (k : String) (v : α) : List (String × α) → List (String × α)
  | [] => [(k, v)]
  | e :: rest => if e.1 = k then (k, v) :: rest else e :: dinsert k v rest

/-- Python `d.get(k)`: the value stored at `k`, if any. -/
def dlookup {α : Type} (k : String) : List (String × α) → Option α
  | [] => none
  | e :: rest => if e.1 = k then some e.2 else dlookup k rest

/-- Python `d.get(k, dflt)`. -/
def dlookupD {α : Type} (k : String) (l : List (String × α)) (dflt : α) : α :=
  (dlookup k l).getD dflt

/-- Python `k in d`. -/
def dcontains {α : Type} (k : String) (l : List (String × α)) : Bool :=
  (dlookup k l).isSome

/-- The keys of a table, in storage order. -/
def dkeys {α : Type} (l : List (String × α)) : List String :=
  l.map Prod.fst

/-- Number of entries stored under a given key. -/
def countKey {α : Type} (k : String) : List (String × α) → Nat
  | [] => 0
  | e :: rest => (if e.1 = k then 1 else 0) + countKey k rest

@[simp] theorem dlookup_nil {α : Type} (k : String) : dlookup k ([] : List (String × α)) = none := rfl

@[simp] theorem dlookup_cons {α : Type} (k : String) (e : String × α) (l : List (String × α)) :
    dlookup k (e :: l) = if e.1 = k then some e.2 else dlookup k l := rfl

@[simp] theorem dlookup_dinsert_self {α : Type} (k : String) (v : α) (l : List (String × α)) :
    dlookup k (dinsert k v l) = some v := by
  induction l with
  | nil => simp [dinsert]
  | cons e rest ih =>
    by_cases h : e.1 = k
    · simp [dinsert, h]
    · simp [dinsert, h, ih]

theorem dlookup_dinsert_ne {α : Type} {k k' : String} (v : α) (l : List (String × α))
    (h : k' ≠ k) : dlookup k' (dinsert k v l) = dlookup k' l := by
  induction l with
  | nil => simp [dinsert, dlookup, Ne.symm h]
  | cons e rest ih =>
    by_cases he : e.1 = k
    · subst he
      simp [dinsert, dlookup, Ne.symm h, h]
    · by_cases he' : e.1 = k'
      · simp [dinsert, he, dlookup, he', h]
      · simp [dinsert, he, dlookup, he', ih]

@[simp] theorem dkeys_nil {α : Type} : dkeys ([] : List (String × α)) = [] := rfl

@[simp] theorem dkeys_cons {α : Type} (e : String × α) (l : List (String × α)) :
    dkeys (e :: l) = e.1 :: dkeys l := rfl

theorem mem_dkeys_dinsert {α : Type} {k' k : String} {v : α} {l : List (String × α)} :
    k' ∈ dkeys (dinsert k v l) ↔ k' = k ∨ k' ∈ dkeys l := by
  induction l with
  | nil => simp [dinsert]
  | cons e rest ih =>
    by_cases h : e.1 = k
    · rw [show dinsert k v (e :: rest) = (k, v) :: rest by simp [dinsert, h]]
      simp only [dkeys_cons, List.mem_cons, ← h]
      tauto
    · rw [show dinsert k v (e :: rest) = e :: dinsert k v rest by simp [dinsert, h]]
      simp only [dkeys_cons, List.mem_cons, ih]
      tauto

theorem dcontains_iff_mem_dkeys {α : Type} (k : String) (l : List (String × α)) :
    dcontains k l = true ↔ k ∈ dkeys l := by
  induction l with
  | nil => simp [dcontains]
  | cons e rest ih =>
    by_cases h : e.1 = k
    · subst h
      simp [dcontains, dlookup]
    · have hne : ¬ k = e.1 := fun hh => h hh.symm
      simp only [dcontains, dlookup_cons, if_neg h, dkeys_cons, List.mem_cons]
      rw [← dcontains]
      rw [ih]
      simp [hne]

theorem dcontains_false_of_not_mem {α : Type} {k : String} {l : List (String × α)}
    (h : k ∉ dkeys l) : dcontains k l = false := by
  cases hc : dcontains k l
  · rfl
  · exact absurd ((dcontains_iff_mem_dkeys k l).1 hc) h

theorem dinsert_of_not_mem {α : Type} {k : String} (v : α) {l : List (String × α)}
    (h : k ∉ dkeys l) : dinsert k v l = l ++ [(k, v)] := by
  induction l with
  | nil => rfl
  | cons e rest ih =>
    simp only [dkeys_cons, List.mem_cons] at h
    push_neg at h
    have hne : ¬ e.1 = k := fun hh => h.1 hh.symm
    simp [dinsert, hne, ih h.2]

theorem dkeys_dinsert_of_mem {α : Type} {k : String} (v : α) {l : List (String × α)}
    (h : k ∈ dkeys l) : dkeys (dinsert k v l) = dkeys l := by
  induction l with
  | nil => simp at h
  | cons e rest ih =>
    by_cases he : e.1 = k
    · simp [dinsert, he]
    · simp only [dkeys_cons, List.mem_cons] at h
      rcases h with h | h
      · exact absurd h.symm he
      · simp [dinsert, he, ih h]

theorem nodup_dkeys_dinsert {α : Type} {k : String} (v : α) {l : List (String × α)}
    (h : (dkeys l).Nodup) : (dkeys (dinsert k v l)).Nodup := by
  by_cases hm : k ∈ dkeys l
  · rwa [dkeys_dinsert_of_mem v hm]
  · rw [dinsert_of_not_mem v hm]
    rw [dkeys, List.map_append]
    rw [List.nodup_append]
    refine ⟨h, by simp, ?_⟩
    intro a ha
    simp only [List.map_cons, List.map_nil, List.mem_singleton]
    intro hb
    exact hm (hb ▸ ha)

theorem countKey_eq_zero_of_not_mem {α : Type} {k : String} {l : List (String × α)}
    (h : k ∉ dkeys l) : countKey k l = 0 := by
  induction l with
  | nil => rfl
  | cons e rest ih =>
    simp only [dkeys_cons, List.mem_cons] at h
    push_neg at h
    have hne : ¬ e.1 = k := fun hh => h.1 hh.symm
    simp [countKey, hne, ih h.2]

theorem countKey_dinsert_of_nodup {α : Type} {k : String} (v : α) {l : List (String × α)}
    (h : (dkeys l).Nodup) : countKey k (dinsert k v l) = 1 := by
  induction l with
  | nil => simp [dinsert, countKey]
  | cons e rest ih =>
    by_cases he : e.1 = k
    · subst he
      simp only [dkeys_cons, List.nodup_cons] at h
      simp [dinsert, countKey, countKey_eq_zero_of_not_mem h.1]
    · simp only [dkeys_cons, List.nodup_cons] at h
      simp [dinsert, he, countKey, ih h.2]

/-! ### Python string helpers -/

/-- Characters for which Python `str.isspace()` is true; this is the set
stripped by `str.strip()`. -/
def isPySpace (c : Char) : Bool :=
  c = ' ' || c = '\t' || c = '\n' || c = '\x0b' || c = '\x0c' || c = '\r' ||
  c = '\x1c' || c = '\x1d' || c = '\x1e' || c = '\x1f' || c = '\x85' ||
  c = '\xa0' || c = ' ' ||
  (' ' ≤ c && c ≤ ' ') ||
  c = ' ' || c = ' ' || c = ' ' || c = ' ' || c = '　'

/-- Python `s.strip()`: remove leading and trailing whitespace. -/
def pyStrip (s : String) : String :=
  String.mk (((s.data.dropWhile isPySpace).reverse.dropWhile isPySpace).reverse)

/-- Line-break characters recognised by Python `str.splitlines()`
(besides the two-character break `"\r\n"`, handled separately). -/
def isPyLineBreak (c : Char) : Bool :=
  c = '\n' || c = '\r' || c = '\x0b' || c = '\x0c' ||
  c = '\x1c' || c = '\x1d' || c = '\x1e' || c = '\x85' ||
  c = ' ' || c = ' '

/-- Worker for `pySplitlines`: `acc` is the current line, reversed.  The
two-character break `"\r\n"` counts as a single boundary; `isPyLineBreak`
covers a lone `'\r'`. -/
def splitlinesAux : List Char → List Char → List String
  | [], acc => if acc = [] then [] else [String.mk acc.reverse]
  | '\r' :: '\n' :: rest, acc => String.mk acc.reverse :: splitlinesAux rest []
  | c :: rest, acc =>
    if isPyLineBreak c then String.mk acc.reverse :: splitlinesAux rest []
    else splitlinesAux rest (c :: acc)

/-- Python `s.splitlines()`: split at line boundaries, not keeping the
terminators and not producing a final empty line for a trailing terminator. -/
def pySplitlines (s : String) : List String :=
  splitlinesAux s.data []

/-! ### Error type shared by both variants -/

/-- An HTTP error as raised by `HTTPException(status_code, detail)`. -/
structure HError where
  status : Nat
  detail : String
deriving DecidableEq

/-- The 404 raised by every handler that is given an unknown project id. -/
def notFoundErr : HError := ⟨404, "Project not found"⟩

/-! ### Variant 1: `src/main.py` -/

namespace V1

/-- Schema `Project` of `src/schemas.py`.  `mode` and `fandom` are literal
string enums in the source and are embedded as strings. -/
structure Project where
  title : String
  topic : String
  mode : String := "auto"
  fandom : String := "generic"
  use_ai_images : Bool := true
  use_stock_media : Bool := false
  use_ai_voice : Bool := true
  brand_primary : String := "#FACC15"
  brand_secondary : String := "#18181B"
  fps : Nat := 30
  max_seconds : Nat := 60
deriving DecidableEq

/-- Schema `ScriptSegment` of `src/schemas.py`: the source field `end` is a
reserved word in Lean and is called `stop` here.  Both timestamps are floats
in the source but every reachable value is a whole number of seconds. -/
structure ScriptSegment where
  start : Nat
  stop : Nat
  text : String
deriving DecidableEq

/-- Schema `Script` of `src/schemas.py`. -/
structure Script where
  project_id : String
  text : String
  segments : List ScriptSegment := []
deriving DecidableEq

/-- Schema `MediaAsset` of `src/schemas.py`; the open `meta` mapping only
ever holds string values in this variant. -/
structure MediaAsset where
  project_id : String
  kind : String
  url : String
  meta : List (String × String) := []
deriving DecidableEq

/-- Schema `RenderJob` of `src/schemas.py`; no handler ever constructs one. -/
structure RenderJob where
  project_id : String
  status : String := "queued"
  output_url : Option String := none
  error : Option String := none
deriving DecidableEq

/-- The four module-level tables `PROJECTS`, `SCRIPTS`, `ASSETS`, `RENDERS`. -/
structure State where
  projects : List (String × Project)
  scripts : List (String × Script)
  assets : List (String × List MediaAsset)
  renders : List (String × RenderJob)
deriving DecidableEq

/-- The empty store at process start. -/
def init : State := ⟨[], [], [], []⟩

/-- Handler `create_project`.  The source draws `pid` from `uuid.uuid4()`;
the freshly drawn string is passed in as the oracle argument `pid`.  The
request fields `mode` and `fandom` are optional with pydantic defaults
`"auto"` and `"generic"`; omission is modelled by passing `none`. -/
def create_project (st : State) (pid title topic : String)
    (mode? fandom? : Option String) : (Except HError String) × State :=
  let project : Project :=
    ⟨title, topic, mode?.getD "auto", fandom?.getD "generic",
     true, false, true, "#FACC15", "#18181B", 30, 60⟩
  (Except.ok pid, ⟨dinsert pid project st.projects, st.scripts, st.assets, st.renders⟩)

/-- The aggregate view returned by `get_project`. -/
structure ProjectView where
  project : Project
  script : Option Script
  assets : List MediaAsset
  render : Option RenderJob
deriving DecidableEq

/-- Handler `get_project`: a pure read of all four tables. -/
def get_project (st : State) (pid : String) : (Except HError ProjectView) × State :=
  match dlookup pid st.projects with
  | none => (Except.error notFoundErr, st)
  | some project =>
    (Except.ok ⟨project, dlookup pid st.scripts, dlookupD pid st.assets [], dlookup pid st.renders⟩,
     st)

/-- The fixed bullet lines of `generate_script`. -/
def bullets : List String :=
  ["Hook: a jaw-dropping reveal in 5 seconds",
   "Point 1: surprising lore detail",
   "Point 2: fan theory twist",
   "Point 3: what most fans miss",
   "CTA: follow for more in-universe secrets"]

/-- The script stored by `generate_script` for a given project and topic. -/
def templatedScript (pid topic : String) : Script :=
  ⟨pid,
   "Topic: " ++ topic ++ "\n" ++ String.intercalate "\n" (bullets.map (fun b => "- " ++ b)),
   [⟨0, 5, "Hook"⟩, ⟨5, 20, "Point 1"⟩, ⟨20, 35, "Point 2"⟩, ⟨35, 50, "Point 3"⟩,
    ⟨50, 58, "CTA"⟩]⟩

/-- Handler `generate_script`: 404 when the project id is unknown, otherwise
`SCRIPTS[project_id] = script` with the fixed templated script. -/
def generate_script (st : State) (pid topic : String) : (Except HError Unit) × State :=
  if dcontains pid st.projects then
    (Except.ok (),
     ⟨st.projects, dinsert pid (templatedScript pid topic) st.scripts, st.assets, st.renders⟩)
  else (Except.error notFoundErr, st)

/-- The non-empty stripped lines of the provided text:
`[l.strip() for l in text.splitlines() if l.strip()]`. -/
def provideLines (text : String) : List String :=
  ((pySplitlines text).map pyStrip).filter (fun l => l ≠ "")

/-- The segment-building loop of `provide_script`: each line gets the window
`[t, min dur (t + per)]` and `t` advances by `per`. -/
def buildSegs (dur per t : Nat) : List String → List ScriptSegment
  | [] => []
  | l :: ls => ⟨t, min dur (t + per), l⟩ :: buildSegs dur per (t + per) ls

/-- The script stored by `provide_script`: `dur = 55`,
`per = max 1 (dur / max 1 lines.length)` (integer division). -/
def providedScript (pid text : String) : Script :=
  let lines := provideLines text
  let per := max 1 (55 / max 1 lines.length)
  ⟨pid, text, buildSegs 55 per 0 lines⟩

/-- Handler `provide_script`: 404 when the project id is unknown, otherwise
`SCRIPTS[project_id] = script` with the naive line segmentation. -/
def provide_script (st : State) (pid text : String) : (Except HError Unit) × State :=
  if dcontains pid st.projects then
    (Except.ok (),
     ⟨st.projects, dinsert pid (providedScript pid text) st.scripts, st.assets, st.renders⟩)
  else (Except.error notFoundErr, st)

/-- Module constant `HP_GIFS`. -/
def HP_GIFS : List String :=
  ["https://media.tenor.com/1.gif", "https://media.tenor.com/2.gif",
   "https://media.tenor.com/3.gif"]

/-- Module constant `GOT_GIFS`. -/
def GOT_GIFS : List String :=
  ["https://media.tenor.com/a.gif", "https://media.tenor.com/b.gif",
   "https://media.tenor.com/c.gif"]

/-- Module constant `GENERIC_GIFS`. -/
def GENERIC_GIFS : List String :=
  ["https://media.tenor.com/x.gif", "https://media.tenor.com/y.gif",
   "https://media.tenor.com/z.gif"]

/-- The URL pool selected by the `if fandom == ...` chain of `ai_images`. -/
def poolFor (fandom : String) : List String :=
  if fandom = "harry_potter" then HP_GIFS
  else if fandom = "game_of_thrones" then GOT_GIFS
  else GENERIC_GIFS

/-- The prompt list selected by the same chain. -/
def promptsFor (fandom : String) : List String :=
  if fandom = "harry_potter" then ["wand sparks", "hogwarts castle night", "patronus mist"]
  else if fandom = "game_of_thrones" then
    ["dragon flight", "winterfell snow drift", "sword sparks"]
  else ["magic particles", "fantasy landscape", "mystic smoke"]

/-- What `random.sample(pool, k)` guarantees about its result: `k` distinct
elements of the pool. -/
def IsSample (pool : List String) (picked : List String) (k : Nat) : Prop :=
  picked.length = k ∧ picked.Nodup ∧ ∀ u ∈ picked, u ∈ pool

instance (pool picked : List String) (k : Nat) : Decidable (IsSample pool picked k) := by
  unfold IsSample
  infer_instance

/-- The image assets `ai_images` builds: each picked URL paired by position
with the fandom's prompt, with prompt and fandom recorded in `meta`. -/
def imageBatch (pid fandom : String) (picked : List String) : List MediaAsset :=
  (picked.zip (promptsFor fandom)).map
    (fun up => (⟨pid, "image", up.1, [("prompt", up.2), ("fandom", fandom)]⟩ : MediaAsset))

/-- Handler `ai_images`.  `random.sample` is modelled by the oracle function
`sample`; theorems about this handler assume `IsSample` of its output.  The
request field `fandom` has pydantic default `"generic"`; omission is
modelled by passing `none`. -/
def ai_images (st : State) (pid : String) (fandom? : Option String)
    (sample : List String → Nat → List String) : (Except HError Nat) × State :=
  if dcontains pid st.projects then
    let fandom := fandom?.getD "generic"
    let pool := poolFor fandom
    let picked := sample pool (min 3 pool.length)
    let assets := imageBatch pid fandom picked
    (Except.ok assets.length,
     ⟨st.projects, st.scripts,
      dinsert pid (dlookupD pid st.assets [] ++ assets) st.assets, st.renders⟩)
  else (Except.error notFoundErr, st)

/-- The fixed placeholder TTS URL of handler `voice`. -/
def ttsUrl : String :=
  "https://cdn.pixabay.com/download/audio/2022/02/23/audio_6b3c.mp3?filename=neutral-female-voiceover-sample.mp3"

/-- Handler `voice`: appends one fixed voice asset; no script precondition
in this variant. -/
def voice (st : State) (pid : String) : (Except HError Unit) × State :=
  if dcontains pid st.projects then
    let asset : MediaAsset :=
      ⟨pid, "voice", ttsUrl, [("voice", "female_neutral"), ("lang", "en-US")]⟩
    (Except.ok (),
     ⟨st.projects, st.scripts,
      dinsert pid (dlookupD pid st.assets [] ++ [asset]) st.assets, st.renders⟩)
  else (Except.error notFoundErr, st)

/-- Handler `health`. -/
def health (st : State) : (Except HError Bool) × State := (Except.ok true, st)

end V1

/-! ### Variant 2: `src/backend/main.py` -/

namespace V2

/-- Schema `Project` of `src/backend/schemas.py`. -/
structure Project where
  title : String
  topic : String
  mode : String
  status : String := "draft"
  use_ai_script : Bool := true
  use_ai_voice : Bool := true
  use_stock_media : Bool := true
  use_ai_images : Bool := true
  brand_name : Option String := none
  color_primary : Option String := some "#FFD54A"
  color_secondary : Option String := some "#FFFFFF"
  fps : Nat := 30
  max_seconds : Nat := 60
deriving DecidableEq

/-- Schema `Script` of `src/backend/schemas.py`: segments are plain strings
in this variant. -/
structure Script where
  project_id : String
  text : String
  segments : List String
deriving DecidableEq

/-- Schema `MediaAsset` of `src/backend/schemas.py`; `meta` is optional and
only ever holds string values here. -/
structure MediaAsset where
  project_id : String
  kind : String
  url : String
  attribution : Option String := none
  meta : Option (List (String × String)) := none
deriving DecidableEq

/-- Schema `RenderJob` of `src/backend/schemas.py`; never constructed. -/
structure RenderJob where
  project_id : String
  status : String := "queued"
  output_url : Option String := none
  error : Option String := none
deriving DecidableEq

/-- The four module-level tables. -/
structure State where
  projects : List (String × Project)
  scripts : List (String × Script)
  assets : List (String × List MediaAsset)
  renders : List (String × RenderJob)
deriving DecidableEq

/-- The empty store at process start. -/
def init : State := ⟨[], [], [], []⟩

/-- Python `a or b` for an optional string: `None` and the empty string are
falsy. -/
def orStr (o : Option String) (dflt : String) : String :=
  match o with
  | none => dflt
  | some s => if s = "" then dflt else s

/-- Python `a or b` for an optional list: `None` and the empty list are
falsy. -/
def orList (o : Option (List String)) (dflt : List String) : List String :=
  match o with
  | none => dflt
  | some [] => dflt
  | some l => l

/-- The project id issued by `create_project`: `f"proj_{len(PROJECTS)+1}"`. -/
def pidOf (n : Nat) : String := "proj_" ++ Nat.repr n

/-- Handler `create_project`: issues `proj_{len(PROJECTS)+1}` and stores the
record; `body.fandom` is accepted but unused by the handler. -/
def create_project (st : State) (title topic mode : String)
    (brand_name : Option String) (fandom : Option String) :
    ((String × Project) × State) :=
  let pid := pidOf (st.projects.length + 1)
  let project : Project :=
    ⟨title, topic, mode, "draft", true, true, true, true, brand_name,
     some "#FFD54A", some "#FFFFFF", 30, 60⟩
  ((pid, project), ⟨dinsert pid project st.projects, st.scripts, st.assets, st.renders⟩)

/-- The script stored by `generate_script`: hook, three bullets, CTA. -/
def placeholderScript (pid topic : String) : Script :=
  let hook := "What if I told you " ++ topic ++ " hides a secret you missed?"
  let bulletLines :=
    ["Hidden detail #1 about " ++ topic,
     "Hidden detail #2 that changes everything",
     "A fan theory that actually makes sense"]
  let cta := "Follow for more bite-sized lore!"
  let segments := [hook] ++ bulletLines ++ [cta]
  ⟨pid, String.intercalate "\n" segments, segments⟩

/-- Handler `generate_script`: 404 when the project id is unknown; the topic
falls back to the stored project's topic when absent or empty. -/
def generate_script (st : State) (pid : String) (topic? : Option String) :
    (Except HError Script) × State :=
  match dlookup pid st.projects with
  | none => (Except.error notFoundErr, st)
  | some project =>
    let topic := orStr topic? project.topic
    let script := placeholderScript pid topic
    (Except.ok script, ⟨st.projects, dinsert pid script st.scripts, st.assets, st.renders⟩)

/-- Python `text.replace("\r", "\n")`: the pattern is a single character,
so the replacement is a character map. -/
def crlfToLf (text : String) : String :=
  String.mk (text.data.map (fun c => if c = '\r' then '\n' else c))

/-- Worker for `splitNl`: `acc` is the current piece, reversed. -/
def splitNlAux : List Char → List Char → List String
  | [], acc => [String.mk acc.reverse]
  | c :: rest, acc =>
    if c = '\n' then String.mk acc.reverse :: splitNlAux rest []
    else splitNlAux rest (c :: acc)

/-- Python `s.split("\n")`: split at every newline, keeping empty pieces
(so the empty string yields `[""]`). -/
def splitNl (s : String) : List String := splitNlAux s.data []

/-- The segmentation of `provide_script`:
`[s.strip() for s in text.replace("\r", "\n").split("\n") if s.strip()]`. -/
def v2Lines (text : String) : List String :=
  ((splitNl (crlfToLf text)).map pyStrip).filter (fun l => l ≠ "")

/-- The script stored by `provide_script`, with the whole-text fallback when
no non-empty line remains. -/
def v2ProvidedScript (pid text : String) : Script :=
  let segs0 := v2Lines text
  ⟨pid, text, if segs0 = [] then [text] else segs0⟩

/-- Handler `provide_script`: 404 when the project id is unknown, otherwise
replaces `SCRIPTS[project_id]`. -/
def provide_script (st : State) (pid text : String) : (Except HError Script) × State :=
  if dcontains pid st.projects then
    let script := v2ProvidedScript pid text
    (Except.ok script, ⟨st.projects, dinsert pid script st.scripts, st.assets, st.renders⟩)
  else (Except.error notFoundErr, st)

/-- Module constant `sample_gifs`: the single placeholder pool used for every
fandom in this variant. -/
def sample_gifs : List String :=
  ["https://media.tenor.com/9v0Yw6Z0v2cAAAAC/magic-loop.gif",
   "https://media.tenor.com/tk2b8h7VJ24AAAAC/fantasy-landscape.gif",
   "https://media.tenor.com/7xgq6sVJ0bUAAAAC/smoke-magic.gif"]

/-- The default prompt list derived from the fandom tag. -/
def defaultPrompts (fandom : String) : List String :=
  ["cinematic portrait, " ++ fandom ++ " style, magical particles, ultra detail, 9:16",
   "dynamic action shot, " ++ fandom ++ " vibes, volumetric light, 9:16",
   "mystical landscape, " ++ fandom ++ " world, fog, depth, 9:16"]

/-- The image assets `generate_ai_images` builds: the fixed `sample_gifs`
paired by position with the prompt list. -/
def imageBatch (pid : String) (prompts : List String) : List MediaAsset :=
  (sample_gifs.zip prompts).map
    (fun up => (⟨pid, "image", up.1, none, some [("prompt", up.2)]⟩ : MediaAsset))

/-- Handler `generate_ai_images`: pairs the fixed `sample_gifs` with the
caller's prompts (or the fandom-derived defaults) and appends the result. -/
def generate_ai_images (st : State) (pid : String) (prompts? : Option (List String))
    (fandom? : Option String) : (Except HError (List MediaAsset)) × State :=
  if dcontains pid st.projects then
    let fandom := orStr fandom? "generic"
    let prompts := orList prompts? (defaultPrompts fandom)
    let assets := imageBatch pid prompts
    (Except.ok assets,
     ⟨st.projects, st.scripts,
      dinsert pid (dlookupD pid st.assets [] ++ assets) st.assets, st.renders⟩)
  else (Except.error notFoundErr, st)

/-- The fixed placeholder voiceover URL. -/
def voiceUrl : String :=
  "https://files.freemusicarchive.org/storage-freemusicarchive-org/music/no_curator/Scott_Holmes_Music/Happy_Music/Scott_Holmes_Music_-_05_-_Upbeat_Party.mp3"

/-- Handler `generate_voiceover`: 404 when the project id is unknown, 400
when no script is stored yet; otherwise appends one voice asset carrying
neither metadata nor attribution — the requested `voice` is ignored. -/
def generate_voiceover (st : State) (pid : String) (voice? : Option String) :
    (Except HError MediaAsset) × State :=
  if dcontains pid st.projects then
    if dcontains pid st.scripts then
      let asset : MediaAsset := ⟨pid, "voice", voiceUrl, none, none⟩
      (Except.ok asset,
       ⟨st.projects, st.scripts,
        dinsert pid (dlookupD pid st.assets [] ++ [asset]) st.assets, st.renders⟩)
    else (Except.error ⟨400, "Script missing"⟩, st)
  else (Except.error notFoundErr, st)

/-- The aggregate view returned by `get_project`. -/
structure ProjectView where
  project : Project
  script : Option Script
  assets : List MediaAsset
  render : Option RenderJob
deriving DecidableEq

/-- Handler `get_project`: a pure read of all four tables. -/
def get_project (st : State) (pid : String) : (Except HError ProjectView) × State :=
  match dlookup pid st.projects with
  | none => (Except.error notFoundErr, st)
  | some project =>
    (Except.ok ⟨project, dlookup pid st.scripts, dlookupD pid st.assets [], dlookup pid st.renders⟩,
     st)

/-- Handler `health`. -/
def health (st : State) : (Except HError Bool) × State := (Except.ok true, st)

end V2
/-- Decimal digit list of a natural number, most significant first. -/
def decRep (n : Nat) : List Char :=
  if n < 10 then [Nat.digitChar n]
  else decRep (n / 10) ++ [Nat.digitChar (n % 10)]
decreasing_by exact Nat.div_lt_self (by omega) (by omega)

theorem decRep_lt {n : Nat} (h : n < 10) : decRep n = [Nat.digitChar n] := by
  rw [decRep, if_pos h]

theorem decRep_ge {n : Nat} (h : ¬ n < 10) :
    decRep n = decRep (n / 10) ++ [Nat.digitChar (n % 10)] := by
  rw [decRep, if_neg h]

theorem toDigitsCore_eq_decRep (fuel : Nat) :
    ∀ n ds, n < fuel → Nat.toDigitsCore 10 fuel n ds = decRep n ++ ds := by
  induction fuel with
  | zero => intro n ds h; omega
  | succ f ih =>
    intro n ds h
    rw [Nat.toDigitsCore]
    by_cases h10 : n < 10
    · have hz : n / 10 = 0 := Nat.div_eq_of_lt h10
      simp only [hz, if_pos rfl]
      rw [decRep_lt h10, Nat.mod_eq_of_lt h10]
      rfl
    · have hz : ¬ n / 10 = 0 := by
        intro hc
        exact h10 (by omega)
      simp only [hz, if_neg hz]
      rw [ih (n / 10) _ (by omega)]
      rw [decRep_ge h10]
      simp

theorem toDigits_eq_decRep (n : Nat) : Nat.toDigits 10 n = decRep n := by
  rw [Nat.toDigits, toDigitsCore_eq_decRep (n + 1) n [] (by omega), List.append_nil]

/-- Numeric value of a decimal digit character. -/
def charDigitVal (c : Char) : Nat := c.toNat - 48

theorem charDigitVal_digitChar {d : Nat} (h : d < 10) :
    charDigitVal (Nat.digitChar d) = d := by
  interval_cases d <;> rfl

/-- Value of a digit string, most significant first. -/
def decVal (ds : List Char) : Nat := ds.foldl (fun a c => 10 * a + charDigitVal c) 0

theorem decRep_foldl (n : Nat) : ∀ a : Nat,
    (decRep n).foldl (fun a c => 10 * a + charDigitVal c) a =
      a * 10 ^ (decRep n).length + n := by
  induction n using Nat.strong_induction_on with
  | _ n ih =>
    intro a
    by_cases h10 : n < 10
    · rw [decRep_lt h10]
      simp [charDigitVal_digitChar h10]
      ring
    · rw [decRep_ge h10]
      simp only [List.foldl_append, List.foldl_cons, List.foldl_nil, List.length_append,
        List.length_cons, List.length_nil]
      rw [ih (n / 10) (Nat.div_lt_self (by omega) (by omega)) a]
      rw [charDigitVal_digitChar (Nat.mod_lt n (by omega))]
      have hnm : n = 10 * (n / 10) + n % 10 := (Nat.div_add_mod n 10).symm
      rw [pow_succ]
      ring_nf
      omega

theorem decVal_decRep (n : Nat) : decVal (decRep n) = n := by
  rw [decVal, decRep_foldl n 0]
  simp

theorem repr_injective : Function.Injective Nat.repr := by
  intro m n h
  have hd : Nat.toDigits 10 m = Nat.toDigits 10 n := by
    have := congrArg String.data h
    simpa [Nat.repr, List.asString] using this
  rw [toDigits_eq_decRep, toDigits_eq_decRep] at hd
  have := congrArg decVal hd
  rwa [decVal_decRep, decVal_decRep] at this

theorem pidOf_injective : Function.Injective V2.pidOf := by
  intro m n h
  apply repr_injective
  have hd := congrArg String.data h
  simp only [V2.pidOf, String.data_append] at hd
  exact String.ext (List.append_cancel_left hd)

/-! ### Reachable states -/

theorem dlookup_eq_none_of_not_mem {α : Type} {k : String} {l : List (String × α)}
    (h : k ∉ dkeys l) : dlookup k l = none := by
  have hc := dcontains_false_of_not_mem h
  unfold dcontains at hc
  cases hl : dlookup k l
  · rfl
  · rw [hl] at hc
    simp at hc

namespace V1

/-- One request handled by the `src/main.py` service; the `uuid.uuid4()`
draw of `create_project` and the `random.sample` draw of `ai_images` are
the oracle arguments. -/
inductive Step : State → State → Prop
  | create (st : State) (pid title topic : String) (mode? fandom? : Option String) :
      Step st (create_project st pid title topic mode? fandom?).2
  | genScript (st : State) (pid topic : String) : Step st (generate_script st pid topic).2
  | provide (st : State) (pid text : String) : Step st (provide_script st pid text).2
  | images (st : State) (pid : String) (fandom? : Option String)
      (sample : List String → Nat → List String) : Step st (ai_images st pid fandom? sample).2
  | voiceStep (st : State) (pid : String) : Step st (voice st pid).2
  | getStep (st : State) (pid : String) : Step st (get_project st pid).2
  | healthStep (st : State) : Step st (health st).2

/-- States reachable from the empty store. -/
inductive Reachable : State → Prop
  | init : Reachable init
  | step {st st' : State} : Reachable st → Step st st' → Reachable st'

/-- Every project id referenced by the scripts, assets or renders table is a
key of the projects table. -/
def RefIntegrity (st : State) : Prop :=
  (∀ pid ∈ dkeys st.scripts, pid ∈ dkeys st.projects) ∧
  (∀ pid ∈ dkeys st.assets, pid ∈ dkeys st.projects) ∧
  (∀ pid ∈ dkeys st.renders, pid ∈ dkeys st.projects)

theorem refIntegrity_init : RefIntegrity init := by
  refine ⟨?_, ?_, ?_⟩ <;> intro pid h <;> simp [init, dkeys] at h

theorem refIntegrity_step {st st' : State} (hst : RefIntegrity st) (h : Step st st') :
    RefIntegrity st' := by
  obtain ⟨hs, ha, hr⟩ := hst
  cases h with
  | create pid title topic mode? fandom? =>
    refine ⟨?_, ?_, ?_⟩ <;> intro q hq <;>
      simp only [create_project] at hq ⊢ <;>
      rw [mem_dkeys_dinsert]
    · exact Or.inr (hs q hq)
    · exact Or.inr (ha q hq)
    · exact Or.inr (hr q hq)
  | genScript pid topic =>
    by_cases hc : dcontains pid st.projects
    · have hpid := (dcontains_iff_mem_dkeys pid st.projects).1 hc
      simp only [generate_script, hc, if_true]
      refine ⟨?_, ha, hr⟩
      intro q hq
      rcases mem_dkeys_dinsert.1 hq with h | h
      · exact h ▸ hpid
      · exact hs q h
    · simp only [generate_script, hc, if_false]
      exact ⟨hs, ha, hr⟩
  | provide pid text =>
    by_cases hc : dcontains pid st.projects
    · have hpid := (dcontains_iff_mem_dkeys pid st.projects).1 hc
      simp only [provide_script, hc, if_true]
      refine ⟨?_, ha, hr⟩
      intro q hq
      rcases mem_dkeys_dinsert.1 hq with h | h
      · exact h ▸ hpid
      · exact hs q h
    · simp only [provide_script, hc, if_false]
      exact ⟨hs, ha, hr⟩
  | images pid fandom? sample =>
    by_cases hc : dcontains pid st.projects
    · have hpid := (dcontains_iff_mem_dkeys pid st.projects).1 hc
      simp only [ai_images, hc, if_true]
      refine ⟨hs, ?_, hr⟩
      intro q hq
      rcases mem_dkeys_dinsert.1 hq with h | h
      · exact h ▸ hpid
      · exact ha q h
    · simp only [ai_images, hc, if_false]
      exact ⟨hs, ha, hr⟩
  | voiceStep pid =>
    by_cases hc : dcontains pid st.projects
    · have hpid := (dcontains_iff_mem_dkeys pid st.projects).1 hc
      simp only [voice, hc, if_true]
      refine ⟨hs, ?_, hr⟩
      intro q hq
      rcases mem_dkeys_dinsert.1 hq with h | h
      · exact h ▸ hpid
      · exact ha q h
    · simp only [voice, hc, if_false]
      exact ⟨hs, ha, hr⟩
  | getStep pid =>
    cases hl : dlookup pid st.projects <;> simp only [get_project, hl] <;> exact ⟨hs, ha, hr⟩
  | healthStep =>
    exact ⟨hs, ha, hr⟩

theorem refIntegrity_reachable {st : State} (h : Reachable st) : RefIntegrity st := by
  induction h with
  | init => exact refIntegrity_init
  | step _ hstep ih => exact refIntegrity_step ih hstep

end V1

namespace V2

/-- One request handled by the `src/backend/main.py` service, together with
the list of project ids returned by the `create_project` calls so far. -/
inductive Trace : State → List String → Prop
  | init : Trace init []
  | create {st : State} {ids : List String} (title topic mode : String)
      (brand_name fandom : Option String) : Trace st ids →
      Trace (create_project st title topic mode brand_name fandom).2
        (ids ++ [(create_project st title topic mode brand_name fandom).1.1])
  | genScript {st : State} {ids : List String} (pid : String) (topic? : Option String) :
      Trace st ids → Trace (generate_script st pid topic?).2 ids
  | provide {st : State} {ids : List String} (pid text : String) :
      Trace st ids → Trace (provide_script st pid text).2 ids
  | images {st : State} {ids : List String} (pid : String) (prompts? : Option (List String))
      (fandom? : Option String) : Trace st ids → Trace (generate_ai_images st pid prompts? fandom?).2 ids
  | voiceover {st : State} {ids : List String} (pid : String) (voice? : Option String) :
      Trace st ids → Trace (generate_voiceover st pid voice?).2 ids
  | getStep {st : State} {ids : List String} (pid : String) :
      Trace st ids → Trace (get_project st pid).2 ids
  | healthStep {st : State} {ids : List String} : Trace st ids → Trace (health st).2 ids

/-- Every project id referenced by the scripts, assets or renders table is a
key of the projects table. -/
def RefIntegrity (st : State) : Prop :=
  (∀ pid ∈ dkeys st.scripts, pid ∈ dkeys st.projects) ∧
  (∀ pid ∈ dkeys st.assets, pid ∈ dkeys st.projects) ∧
  (∀ pid ∈ dkeys st.renders, pid ∈ dkeys st.projects)

/-- Structural invariant of the backend store: the project keys are exactly
`proj_1 … proj_n` in insertion order, every id ever returned by
`create_project` is still a key, and referential integrity holds. -/
def StoreInv (st : State) (ids : List String) : Prop :=
  dkeys st.projects = (List.range st.projects.length).map (fun i => pidOf (i + 1)) ∧
  (∀ pid ∈ ids, pid ∈ dkeys st.projects) ∧
  RefIntegrity st

theorem pidOf_fresh (n : Nat) :
    pidOf (n + 1) ∉ (List.range n).map (fun i => pidOf (i + 1)) := by
  intro h
  simp only [List.mem_map, List.mem_range] at h
  obtain ⟨i, hi, he⟩ := h
  have := pidOf_injective he
  omega

theorem storeInv_trace {st : State} {ids : List String} (h : Trace st ids) :
    StoreInv st ids := by
  induction h with
  | init =>
    refine ⟨rfl, by simp, ?_, ?_, ?_⟩ <;> intro pid hm <;> simp [init, dkeys] at hm
  | create title topic mode brand_name fandom _ ih =>
    obtain ⟨hshape, hids, hs, ha, hr⟩ := ih
    have hfresh : pidOf (_ + 1) ∉ dkeys _ := hshape ▸ pidOf_fresh _
    simp only [create_project]
    rw [dinsert_of_not_mem _ hfresh]
    constructor
    · rw [dkeys, List.map_append, List.length_append]
      rw [← dkeys, hshape]
      simp [List.range_succ]
    constructor
    · intro q hq
      rw [dkeys, List.map_append]
      rcases List.mem_append.1 hq with h | h
      · exact List.mem_append.2 (Or.inl (hids q h))
      · simp only [List.mem_singleton] at h
        subst h
        simp
    · refine ⟨?_, ?_, ?_⟩ <;> intro q hq <;> rw [dkeys, List.map_append] <;>
        apply List.mem_append.2 <;> exact Or.inl (by first | exact hs q hq | exact ha q hq | exact hr q hq)
  | genScript pid topic? _ ih =>
    rename_i st ids htr
    obtain ⟨hshape, hids, hs, ha, hr⟩ := ih
    cases hl : dlookup pid st.projects with
    | none => simpa [generate_script, hl] using ⟨hshape, hids, hs, ha, hr⟩
    | some project =>
      have hpid : pid ∈ dkeys st.projects := by
        by_contra hc
        rw [dlookup_eq_none_of_not_mem hc] at hl
        exact Option.noConfusion hl
      simp only [generate_script, hl]
      refine ⟨hshape, hids, ?_, ha, hr⟩
      intro q hq
      rcases mem_dkeys_dinsert.1 hq with h | h
      · exact h ▸ hpid
      · exact hs q h
  | provide pid text _ ih =>
    rename_i st ids htr
    obtain ⟨hshape, hids, hs, ha, hr⟩ := ih
    by_cases hc : dcontains pid st.projects
    · have hpid := (dcontains_iff_mem_dkeys pid st.projects).1 hc
      simp only [provide_script, hc, if_true]
      refine ⟨hshape, hids, ?_, ha, hr⟩
      intro q hq
      rcases mem_dkeys_dinsert.1 hq with h | h
      · exact h ▸ hpid
      · exact hs q h
    · simpa [provide_script, hc] using ⟨hshape, hids, hs, ha, hr⟩
  | images pid prompts? fandom? _ ih =>
    rename_i st ids htr
    obtain ⟨hshape, hids, hs, ha, hr⟩ := ih
    by_cases hc : dcontains pid st.projects
    · have hpid := (dcontains_iff_mem_dkeys pid st.projects).1 hc
      simp only [generate_ai_images, hc, if_true]
      refine ⟨hshape, hids, hs, ?_, hr⟩
      intro q hq
      rcases mem_dkeys_dinsert.1 hq with h | h
      · exact h ▸ hpid
      · exact ha q h
    · simpa [generate_ai_images, hc] using ⟨hshape, hids, hs, ha, hr⟩
  | voiceover pid voice? _ ih =>
    rename_i st ids htr
    obtain ⟨hshape, hids, hs, ha, hr⟩ := ih
    by_cases hc : dcontains pid st.projects
    · by_cases hsc : dcontains pid st.scripts
      · have hpid := (dcontains_iff_mem_dkeys pid st.projects).1 hc
        simp only [generate_voiceover, hc, hsc, if_true]
        refine ⟨hshape, hids, hs, ?_, hr⟩
        intro q hq
        rcases mem_dkeys_dinsert.1 hq with h | h
        · exact h ▸ hpid
        · exact ha q h
      · simpa [generate_voiceover, hc, hsc] using ⟨hshape, hids, hs, ha, hr⟩
    · simpa [generate_voiceover, hc] using ⟨hshape, hids, hs, ha, hr⟩
  | getStep pid _ ih =>
    rename_i st ids htr
    obtain ⟨hshape, hids, hs, ha, hr⟩ := ih
    cases hl : dlookup pid st.projects <;> simpa [get_project, hl] using ⟨hshape, hids, hs, ha, hr⟩
  | healthStep _ ih =>
    exact ih

end V2

/-! ### Claims -/

/-- C1: at every reachable state of either variant, every project id keyed
in the scripts, assets or renders table is also a key of the projects
table; and every operation other than CreateProject and Health, when called
with a project id not in the projects table, fails with the 404 NotFound
error and leaves the whole state unchanged. -/
theorem claim1_referential_integrity :
    (∀ st : V1.State, V1.Reachable st → V1.RefIntegrity st) ∧
    (∀ (st : V2.State) (ids : List String), V2.Trace st ids → V2.RefIntegrity st) ∧
    (∀ (st : V1.State) (pid : String), pid ∉ dkeys st.projects →
      (∀ topic, V1.generate_script st pid topic = (Except.error notFoundErr, st)) ∧
      (∀ text, V1.provide_script st pid text = (Except.error notFoundErr, st)) ∧
      (∀ fandom? sample, V1.ai_images st pid fandom? sample = (Except.error notFoundErr, st)) ∧
      V1.voice st pid = (Except.error notFoundErr, st) ∧
      V1.get_project st pid = (Except.error notFoundErr, st)) ∧
    (∀ (st : V2.State) (pid : String), pid ∉ dkeys st.projects →
      (∀ topic?, V2.generate_script st pid topic? = (Except.error notFoundErr, st)) ∧
      (∀ text, V2.provide_script st pid text = (Except.error notFoundErr, st)) ∧
      (∀ prompts? fandom?,
        V2.generate_ai_images st pid prompts? fandom? = (Except.error notFoundErr, st)) ∧
      (∀ voice?, V2.generate_voiceover st pid voice? = (Except.error notFoundErr, st)) ∧
      V2.get_project st pid = (Except.error notFoundErr, st)) := by
  refine ⟨?_, ?_, ?_, ?_⟩
  · intro st h
    exact V1.refIntegrity_reachable h
  · intro st ids h
    exact (V2.storeInv_trace h).2.2
  · intro st pid h
    have hc := dcontains_false_of_not_mem h
    have hl := dlookup_eq_none_of_not_mem h
    exact ⟨fun topic => by simp [V1.generate_script, hc],
           fun text => by simp [V1.provide_script, hc],
           fun fandom? sample => by simp [V1.ai_images, hc],
           by simp [V1.voice, hc],
           by simp [V1.get_project, hl]⟩
  · intro st pid h
    have hc := dcontains_false_of_not_mem h
    have hl := dlookup_eq_none_of_not_mem h
    exact ⟨fun topic? => by simp [V2.generate_script, hl],
           fun text => by simp [V2.provide_script, hc],
           fun prompts? fandom? => by simp [V2.generate_ai_images, hc],
           fun voice? => by simp [V2.generate_voiceover, hc],
           by simp [V2.get_project, hl]⟩

/-- Witness for C1: the integrity invariant holds at the state reached by
one CreateProject in each variant, and a concrete unknown id gets the
unchanged-state 404 on a mutating and on a reading endpoint. -/
theorem claim1_witness :
    V1.RefIntegrity (V1.create_project V1.init "p" "T" "Dragons" none none).2 ∧
    V2.RefIntegrity (V2.create_project V2.init "T" "Dragons" "auto" none none).2 ∧
    V1.voice V1.init "ghost" = (Except.error notFoundErr, V1.init) ∧
    V2.get_project V2.init "ghost" = (Except.error notFoundErr, V2.init) :=
  ⟨claim1_referential_integrity.1 _
     (V1.Reachable.step V1.Reachable.init (V1.Step.create V1.init "p" "T" "Dragons" none none)),
   claim1_referential_integrity.2.1 _ _
     (V2.Trace.create "T" "Dragons" "auto" none none V2.Trace.init),
   (claim1_referential_integrity.2.2.1 V1.init "ghost" (by decide)).2.2.2.1,
   (claim1_referential_integrity.2.2.2 V2.init "ghost" (by decide)).2.2.2.2⟩

theorem buildSegs_length (dur per : Nat) (ls : List String) :
    ∀ t, (V1.buildSegs dur per t ls).length = ls.length := by
  induction ls with
  | nil => intro t; rfl
  | cons x xs ih => intro t; simp [V1.buildSegs, ih]

theorem buildSegs_getElem (dur per : Nat) (ls : List String) :
    ∀ (t i : Nat) (l : String), ls[i]? = some l →
      (V1.buildSegs dur per t ls)[i]? =
        some ⟨t + i * per, min dur (t + i * per + per), l⟩ := by
  induction ls with
  | nil => intro t i l h; simp at h
  | cons x xs ih =>
    intro t i l h
    cases i with
    | zero =>
      simp only [List.getElem?_cons_zero, Option.some.injEq] at h
      subst h
      simp [V1.buildSegs]
    | succ j =>
      simp only [List.getElem?_cons_succ] at h
      have harith : t + per + j * per = t + (j + 1) * per := by ring
      have := ih (t + per) j l h
      rw [harith] at this
      simpa [V1.buildSegs] using this

theorem buildSegs_bounds (dur per : Nat) (ls : List String) :
    ∀ t, t + ls.length * per ≤ dur + per →
      ∀ seg ∈ V1.buildSegs dur per t ls, seg.start ≤ seg.stop ∧ seg.stop ≤ dur := by
  induction ls with
  | nil => intro t _ seg hseg; simp [V1.buildSegs] at hseg
  | cons x xs ih =>
    intro t ht seg hseg
    have hmul : (x :: xs).length * per = xs.length * per + per := by
      rw [List.length_cons]
      ring
    rw [hmul] at ht
    simp only [V1.buildSegs, List.mem_cons] at hseg
    rcases hseg with h | h
    · subst h
      dsimp only
      exact ⟨le_min (by omega) (by omega), min_le_left _ _⟩
    · exact ih (t + per) (by omega) seg h

/-- The concrete three-line ProvideScript input named by the spec. -/
def t3 : String := "line one\nline two\nline three"

/-- A 57-line input refuting the universal timing claim of C2. -/
def text57 : String := String.intercalate "\n" (List.replicate 57 "a")

/-- A V1 store holding the single project `"p"`. -/
def exSt1 : V1.State := (V1.create_project V1.init "p" "T" "Dragons" none none).2

/-- C2 (amended): for every existing project and every input with at most 55
non-empty stripped lines, `provide_script` stores one segment per line with
window `[i*per, i*per + per]` where `per = max 1 (55 / lineCount)`, each
window starting where the previous ended, every segment satisfying
`end ≥ start`, and every end at most the total duration 55.  (As stated the
claim is false for inputs with more than 55 lines — see the
counterexample.) -/
theorem claim2_amended (st : V1.State) (pid text : String)
    (hpid : pid ∈ dkeys st.projects)
    (hlen : (V1.provideLines text).length ≤ 55) :
    dlookup pid (V1.provide_script st pid text).2.scripts =
      some (V1.providedScript pid text) ∧
    (V1.providedScript pid text).segments.length = (V1.provideLines text).length ∧
    (∀ i l, (V1.provideLines text)[i]? = some l →
      (V1.providedScript pid text).segments[i]? =
        some (⟨i * max 1 (55 / max 1 (V1.provideLines text).length),
               i * max 1 (55 / max 1 (V1.provideLines text).length) +
                 max 1 (55 / max 1 (V1.provideLines text).length), l⟩ : V1.ScriptSegment)) ∧
    (∀ seg ∈ (V1.providedScript pid text).segments, seg.start ≤ seg.stop ∧ seg.stop ≤ 55) := by
  have hc : dcontains pid st.projects = true := (dcontains_iff_mem_dkeys _ _).2 hpid
  refine ⟨?_, ?_, ?_, ?_⟩
  · simp [V1.provide_script, hc]
  · simp [V1.providedScript, buildSegs_length]
  · intro i l hl
    set n := (V1.provideLines text).length with hn
    have hi : i < n := by
      rcases List.getElem?_eq_some.1 hl with ⟨h, -⟩
      exact h
    have hn1 : 1 ≤ n := by omega
    have hper : max 1 (55 / max 1 n) = 55 / n := by
      have h55 : 1 ≤ 55 / n := (Nat.one_le_div_iff (by omega)).2 hlen
      rw [Nat.max_eq_right hn1, Nat.max_eq_right h55]
    have hbound : i * (55 / n) + 55 / n ≤ 55 := by
      have h1 : (i + 1) * (55 / n) ≤ n * (55 / n) :=
        Nat.mul_le_mul_right _ (by omega)
      have h2 : n * (55 / n) ≤ 55 := by
        calc n * (55 / n) = 55 / n * n := Nat.mul_comm _ _
        _ ≤ 55 := Nat.div_mul_le_self _ _
      have h3 : (i + 1) * (55 / n) = i * (55 / n) + 55 / n := by ring
      omega
    have := buildSegs_getElem 55 (max 1 (55 / max 1 n)) (V1.provideLines text) 0 i l hl
    rw [V1.providedScript]
    simp only [← hn]
    rw [hper] at this ⊢
    rw [this]
    simp only [Nat.zero_add]
    rw [min_eq_right (by omega : i * (55 / n) + 55 / n ≤ 55)]
  · intro seg hseg
    set n := (V1.provideLines text).length with hn
    rw [V1.providedScript] at hseg
    simp only [← hn] at hseg
    refine buildSegs_bounds 55 _ (V1.provideLines text) 0 ?_ seg hseg
    by_cases h0 : n = 0
    · rw [← hn, h0]
      simp
    · have hn1 : 1 ≤ n := by omega
      have hper : max 1 (55 / max 1 n) = 55 / n := by
        have h55 : 1 ≤ 55 / n := (Nat.one_le_div_iff (by omega)).2 hlen
        rw [Nat.max_eq_right hn1, Nat.max_eq_right h55]
      rw [← hn, hper]
      have h2 : n * (55 / n) ≤ 55 := by
        calc n * (55 / n) = 55 / n * n := Nat.mul_comm _ _
        _ ≤ 55 := Nat.div_mul_le_self _ _
      omega

/-- Witness for C2 (amended): the spec's three-line input on a one-project
store satisfies both hypotheses and yields the stated segmentation. -/
theorem claim2_witness :
    ("p" ∈ dkeys exSt1.projects ∧ (V1.provideLines t3).length ≤ 55) ∧
    (dlookup "p" (V1.provide_script exSt1 "p" t3).2.scripts =
      some (V1.providedScript "p" t3) ∧
     (V1.providedScript "p" t3).segments.length = (V1.provideLines t3).length ∧
     (∀ i l, (V1.provideLines t3)[i]? = some l →
       (V1.providedScript "p" t3).segments[i]? =
         some (⟨i * max 1 (55 / max 1 (V1.provideLines t3).length),
                i * max 1 (55 / max 1 (V1.provideLines t3).length) +
                  max 1 (55 / max 1 (V1.provideLines t3).length), l⟩ : V1.ScriptSegment)) ∧
     (∀ seg ∈ (V1.providedScript "p" t3).segments, seg.start ≤ seg.stop ∧ seg.stop ≤ 55)) :=
  ⟨⟨by decide, by decide⟩, claim2_amended exSt1 "p" t3 (by decide) (by decide)⟩

set_option maxRecDepth 100000 in
/-- C2 is false as stated: on a 57-line input every line gets `per = 1`, the
clamp `min 55 (t + per)` caps the end at 55 while starts keep growing, so
segment number 56 is stored with start 56 and end 55 — `end ≥ start`
fails. -/
theorem claim2_counterexample :
    dlookup "p" (V1.provide_script exSt1 "p" text57).2.scripts =
      some (V1.providedScript "p" text57) ∧
    (V1.providedScript "p" text57).segments[56]? = some (⟨56, 55, "a"⟩ : V1.ScriptSegment) ∧
    ¬ (∀ seg ∈ (V1.providedScript "p" text57).segments, seg.start ≤ seg.stop) := by
  decide

/-- A V2 store holding the single project `"proj_1"` and no script. -/
def exSt2 : V2.State := (V2.create_project V2.init "T" "Dragons" "auto" none none).2

/-- C3: in the strict backend variant, GenerateVoiceAsset on an existing
project with no stored script fails with the 400 "Script missing" error and
returns the state unchanged — in particular every table, and so the
project's asset list, has exactly the same length and contents as before. -/
theorem claim3_voice_requires_script (st : V2.State) (pid : String) (voice? : Option String)
    (hp : pid ∈ dkeys st.projects) (hs : pid ∉ dkeys st.scripts) :
    V2.generate_voiceover st pid voice? = (Except.error ⟨400, "Script missing"⟩, st) := by
  have hc : dcontains pid st.projects = true := (dcontains_iff_mem_dkeys _ _).2 hp
  have hsc : dcontains pid st.scripts = false := dcontains_false_of_not_mem hs
  simp [V2.generate_voiceover, hc, hsc]

/-- Witness for C3: a freshly created backend project has no script, and the
voiceover endpoint rejects it with 400 leaving the store untouched. -/
theorem claim3_witness :
    ("proj_1" ∈ dkeys exSt2.projects ∧ "proj_1" ∉ dkeys exSt2.scripts) ∧
    V2.generate_voiceover exSt2 "proj_1" (some "female_neutral") =
      (Except.error ⟨400, "Script missing"⟩, exSt2) :=
  ⟨⟨by decide, by decide⟩,
   claim3_voice_requires_script exSt2 "proj_1" (some "female_neutral") (by decide) (by decide)⟩

/-- C4 (amended): on input with zero non-empty stripped lines, the backend
variant stores exactly one segment holding the original text, while
`src/main.py` has no such fallback and stores a script with zero
segments. -/
theorem claim4_amended (st1 : V1.State) (st2 : V2.State) (pid1 pid2 text : String)
    (hp1 : pid1 ∈ dkeys st1.projects) (hp2 : pid2 ∈ dkeys st2.projects)
    (h1 : V1.provideLines text = []) (h2 : V2.v2Lines text = []) :
    dlookup pid2 (V2.provide_script st2 pid2 text).2.scripts =
      some ⟨pid2, text, [text]⟩ ∧
    dlookup pid1 (V1.provide_script st1 pid1 text).2.scripts =
      some ⟨pid1, text, []⟩ := by
  have hc2 : dcontains pid2 st2.projects = true := (dcontains_iff_mem_dkeys _ _).2 hp2
  have hc1 : dcontains pid1 st1.projects = true := (dcontains_iff_mem_dkeys _ _).2 hp1
  constructor
  · simp [V2.provide_script, hc2, V2.v2ProvidedScript, h2]
  · simp [V1.provide_script, hc1, V1.providedScript, h1, V1.buildSegs]

/-- Witness for C4 (amended): a whitespace-only input on stores holding one
project each; the backend stores the single whole-text segment, the other
variant stores no segment. -/
theorem claim4_witness :
    ("p" ∈ dkeys exSt1.projects ∧ "proj_1" ∈ dkeys exSt2.projects ∧
     V1.provideLines "  \n " = [] ∧ V2.v2Lines "  \n " = []) ∧
    (dlookup "proj_1" (V2.provide_script exSt2 "proj_1" "  \n ").2.scripts =
       some ⟨"proj_1", "  \n ", ["  \n "]⟩ ∧
     dlookup "p" (V1.provide_script exSt1 "p" "  \n ").2.scripts =
       some ⟨"p", "  \n ", []⟩) :=
  ⟨⟨by decide, by decide, by decide, by decide⟩,
   claim4_amended exSt1 exSt2 "p" "proj_1" "  \n " (by decide) (by decide) (by decide) (by decide)⟩

/-- C4 is false as stated for `src/main.py`: ProvideScript with the empty
string stores a script with zero segments, not one segment holding the
original text. -/
theorem claim4_counterexample :
    dlookup "p" (V1.provide_script exSt1 "p" "").2.scripts =
      some (⟨"p", "", []⟩ : V1.Script) ∧
    ¬ ((V1.providedScript "p" "").segments.length = 1) := by
  decide

@[simp] theorem dlookupD_dinsert_self {α : Type} (k : String) (v : α) (l : List (String × α))
    (dflt : α) : dlookupD k (dinsert k v l) dflt = v := by
  simp [dlookupD]

/-- C5 (amended): in `src/main.py`, GenerateImageAssets for fandom
`"harry_potter"` appends exactly `min(3, pool size) = 3` image assets whose
URLs are drawn from the Harry-Potter pool and from no other pool, each URL
paired by position with one Harry-Potter prompt; there are no caller
prompts in that variant.  In the backend variant the URLs always come from
the single fixed `sample_gifs` list whatever the fandom, and a
caller-supplied non-empty prompt list makes the appended count
`min(3, number of prompts)`. -/
theorem claim5_amended :
    (∀ (st : V1.State) (pid : String) (sample : List String → Nat → List String),
      pid ∈ dkeys st.projects →
      V1.IsSample V1.HP_GIFS (sample V1.HP_GIFS (min 3 V1.HP_GIFS.length))
        (min 3 V1.HP_GIFS.length) →
      (V1.ai_images st pid (some "harry_potter") sample).1 =
        Except.ok
          (V1.imageBatch pid "harry_potter"
            (sample V1.HP_GIFS (min 3 V1.HP_GIFS.length))).length ∧
      (V1.imageBatch pid "harry_potter"
        (sample V1.HP_GIFS (min 3 V1.HP_GIFS.length))).length = 3 ∧
      dlookupD pid (V1.ai_images st pid (some "harry_potter") sample).2.assets [] =
        dlookupD pid st.assets [] ++
          V1.imageBatch pid "harry_potter" (sample V1.HP_GIFS (min 3 V1.HP_GIFS.length)) ∧
      (∀ a ∈ V1.imageBatch pid "harry_potter" (sample V1.HP_GIFS (min 3 V1.HP_GIFS.length)),
        a.kind = "image" ∧ a.url ∈ V1.HP_GIFS ∧ a.url ∉ V1.GOT_GIFS ∧
          a.url ∉ V1.GENERIC_GIFS)) ∧
    (∀ (st : V2.State) (pid : String) (ps : List String) (fandom? : Option String),
      pid ∈ dkeys st.projects → ps ≠ [] →
      (V2.generate_ai_images st pid (some ps) fandom?).1 =
        Except.ok (V2.imageBatch pid ps) ∧
      (V2.imageBatch pid ps).length = min 3 ps.length ∧
      dlookupD pid (V2.generate_ai_images st pid (some ps) fandom?).2.assets [] =
        dlookupD pid st.assets [] ++ V2.imageBatch pid ps ∧
      (∀ a ∈ V2.imageBatch pid ps, a.url ∈ V2.sample_gifs)) := by
  constructor
  · intro st pid sample hp hs
    have hc : dcontains pid st.projects = true := (dcontains_iff_mem_dkeys _ _).2 hp
    have hpool : V1.poolFor "harry_potter" = V1.HP_GIFS := rfl
    have hlen : (V1.imageBatch pid "harry_potter"
        (sample V1.HP_GIFS (min 3 V1.HP_GIFS.length))).length = 3 := by
      rw [V1.imageBatch, List.length_map, List.length_zip, hs.1]
      rfl
    refine ⟨?_, hlen, ?_, ?_⟩
    · simp [V1.ai_images, hc, Option.getD, hpool]
    · simp [V1.ai_images, hc, Option.getD, hpool]
    · intro a ha
      rw [V1.imageBatch, List.mem_map] at ha
      obtain ⟨up, hup, rfl⟩ := ha
      have hu := (List.of_mem_zip hup).1
      have hmem : up.1 ∈ V1.HP_GIFS := hs.2.2 up.1 hu
      have hdisj : ∀ u ∈ V1.HP_GIFS, u ∉ V1.GOT_GIFS ∧ u ∉ V1.GENERIC_GIFS := by decide
      exact ⟨rfl, hmem, (hdisj up.1 hmem).1, (hdisj up.1 hmem).2⟩
  · intro st pid ps fandom? hp hps
    have hc : dcontains pid st.projects = true := (dcontains_iff_mem_dkeys _ _).2 hp
    have hor : V2.orList (some ps) (V2.defaultPrompts (V2.orStr fandom? "generic")) = ps := by
      cases ps with
      | nil => exact absurd rfl hps
      | cons x xs => rfl
    refine ⟨?_, ?_, ?_, ?_⟩
    · simp [V2.generate_ai_images, hc, hor]
    · rw [V2.imageBatch, List.length_map, List.length_zip]
      rfl
    · simp [V2.generate_ai_images, hc, hor]
    · intro a ha
      rw [V2.imageBatch, List.mem_map] at ha
      obtain ⟨up, hup, rfl⟩ := ha
      exact (List.of_mem_zip hup).1

/-- A deterministic selection that satisfies `V1.IsSample` on any
duplicate-free pool: take the first `k` elements. -/
def takeSample (pool : List String) (k : Nat) : List String := pool.take k

/-- Witness for C5 (amended): both parts applied at one-project stores, the
first with the take-first-3 selection, the second with a two-prompt call. -/
theorem claim5_witness :
    ("p" ∈ dkeys exSt1.projects ∧
     V1.IsSample V1.HP_GIFS (takeSample V1.HP_GIFS (min 3 V1.HP_GIFS.length))
       (min 3 V1.HP_GIFS.length) ∧
     "proj_1" ∈ dkeys exSt2.projects ∧ (["p1", "p2"] : List String) ≠ []) ∧
    ((V1.ai_images exSt1 "p" (some "harry_potter") takeSample).1 =
       Except.ok
         (V1.imageBatch "p" "harry_potter"
           (takeSample V1.HP_GIFS (min 3 V1.HP_GIFS.length))).length ∧
     (V1.imageBatch "p" "harry_potter"
       (takeSample V1.HP_GIFS (min 3 V1.HP_GIFS.length))).length = 3 ∧
     dlookupD "p" (V1.ai_images exSt1 "p" (some "harry_potter") takeSample).2.assets [] =
       dlookupD "p" exSt1.assets [] ++
         V1.imageBatch "p" "harry_potter" (takeSample V1.HP_GIFS (min 3 V1.HP_GIFS.length)) ∧
     (∀ a ∈ V1.imageBatch "p" "harry_potter" (takeSample V1.HP_GIFS (min 3 V1.HP_GIFS.length)),
       a.kind = "image" ∧ a.url ∈ V1.HP_GIFS ∧ a.url ∉ V1.GOT_GIFS ∧
         a.url ∉ V1.GENERIC_GIFS)) ∧
    ((V2.generate_ai_images exSt2 "proj_1" (some ["p1", "p2"]) (some "harry_potter")).1 =
       Except.ok (V2.imageBatch "proj_1" ["p1", "p2"]) ∧
     (V2.imageBatch "proj_1" ["p1", "p2"]).length = min 3 (["p1", "p2"] : List String).length ∧
     dlookupD "proj_1"
       (V2.generate_ai_images exSt2 "proj_1" (some ["p1", "p2"]) (some "harry_potter")).2.assets
         [] = dlookupD "proj_1" exSt2.assets [] ++ V2.imageBatch "proj_1" ["p1", "p2"] ∧
     (∀ a ∈ V2.imageBatch "proj_1" ["p1", "p2"], a.url ∈ V2.sample_gifs)) :=
  ⟨⟨by decide, by decide, by decide, by decide⟩,
   claim5_amended.1 exSt1 "p" takeSample (by decide) (by decide),
   claim5_amended.2 exSt2 "proj_1" ["p1", "p2"] (some "harry_potter") (by decide) (by decide)⟩

/-- C5 is false as stated: in the backend variant a caller-supplied
single-prompt list yields one appended image asset, not
`min(3, pool size) = 3`; and the URL comes from the fixed `sample_gifs`
list, which is not the Harry-Potter pool of the other variant. -/
theorem claim5_counterexample :
    (V2.generate_ai_images exSt2 "proj_1" (some ["p"]) (some "harry_potter")).1 =
      Except.ok
        [(⟨"proj_1", "image", "https://media.tenor.com/9v0Yw6Z0v2cAAAAC/magic-loop.gif",
           none, some [("prompt", "p")]⟩ : V2.MediaAsset)] ∧
    (dlookupD "proj_1"
      (V2.generate_ai_images exSt2 "proj_1" (some ["p"]) (some "harry_potter")).2.assets
        []).length = 1 ∧
    ¬ ((dlookupD "proj_1"
      (V2.generate_ai_images exSt2 "proj_1" (some ["p"]) (some "harry_potter")).2.assets
        []).length = 3) := by
  decide

/-- C6: the identifier returned by CreateProject is distinct from every
identifier returned by an earlier CreateProject call of the same process,
and GetProject on it immediately returns the stored record with the
documented defaults for every omitted optional field.  For the backend
variant (counter-issued `proj_n` ids) both parts are proved along every
trace; for `src/main.py` the id is a fresh `uuid4()` draw — modelled by the
hypothesis that the drawn string is not already a key — and the stored
record carries the defaults `mode="auto"`, `fandom="generic"`, the brand
colors, feature flags, fps 30 and max 60 seconds. -/
theorem claim6_create_unique_and_defaults :
    (∀ (st : V2.State) (ids : List String) (title topic mode : String)
       (bn fd : Option String), V2.Trace st ids →
       (V2.create_project st title topic mode bn fd).1.1 ∉ ids ∧
       (V2.get_project (V2.create_project st title topic mode bn fd).2
          (V2.create_project st title topic mode bn fd).1.1).1 =
         Except.ok
           ⟨⟨title, topic, mode, "draft", true, true, true, true, bn,
             some "#FFD54A", some "#FFFFFF", 30, 60⟩,
            dlookup (V2.create_project st title topic mode bn fd).1.1 st.scripts,
            dlookupD (V2.create_project st title topic mode bn fd).1.1 st.assets [],
            dlookup (V2.create_project st title topic mode bn fd).1.1 st.renders⟩) ∧
    (∀ (st : V1.State) (pid title topic : String), pid ∉ dkeys st.projects →
       (V1.get_project (V1.create_project st pid title topic none none).2 pid).1 =
         Except.ok
           ⟨⟨title, topic, "auto", "generic", true, false, true, "#FACC15", "#18181B", 30, 60⟩,
            dlookup pid st.scripts, dlookupD pid st.assets [], dlookup pid st.renders⟩) := by
  constructor
  · intro st ids title topic mode bn fd htr
    obtain ⟨hshape, hids, -⟩ := V2.storeInv_trace htr
    have hfresh : (V2.create_project st title topic mode bn fd).1.1 ∉ dkeys st.projects := by
      simp only [V2.create_project]
      exact hshape ▸ V2.pidOf_fresh st.projects.length
    constructor
    · intro hmem
      exact hfresh (hids _ hmem)
    · simp [V2.create_project, V2.get_project]
  · intro st pid title topic hfresh
    simp [V1.create_project, V1.get_project]

/-- Witness for C6: after one backend CreateProject the next call returns
the new id `proj_2`, absent from the issued list, and GetProject shows the
defaulted record; the `src/main.py` part at a fresh uuid string on the
empty store shows the defaulted record too. -/
theorem claim6_witness :
    V2.Trace exSt2 ["proj_1"] ∧
    ("proj_2" ∉ (["proj_1"] : List String) ∧
     (V2.get_project (V2.create_project exSt2 "U" "Elves" "step" none none).2 "proj_2").1 =
       Except.ok
         ⟨⟨"U", "Elves", "step", "draft", true, true, true, true, none,
           some "#FFD54A", some "#FFFFFF", 30, 60⟩, none, [], none⟩) ∧
    ("p" ∉ dkeys V1.init.projects ∧
     (V1.get_project (V1.create_project V1.init "p" "T" "Dragons" none none).2 "p").1 =
       Except.ok
         ⟨⟨"T", "Dragons", "auto", "generic", true, false, true, "#FACC15",
           "#18181B", 30, 60⟩, none, [], none⟩) :=
  have htr : V2.Trace exSt2 ["proj_1"] :=
    V2.Trace.create "T" "Dragons" "auto" none none V2.Trace.init
  ⟨htr,
   claim6_create_unique_and_defaults.1 exSt2 ["proj_1"] "U" "Elves" "step" none none htr,
   by decide,
   claim6_create_unique_and_defaults.2 V1.init "p" "T" "Dragons" (by decide)⟩

theorem exists_dlookup_of_mem {α : Type} {k : String} {l : List (String × α)}
    (h : k ∈ dkeys l) : ∃ v, dlookup k l = some v := by
  have hc := (dcontains_iff_mem_dkeys k l).2 h
  unfold dcontains at hc
  exact Option.isSome_iff_exists.1 hc

/-- C7: two successive GenerateScript calls on an existing project leave
exactly one stored script — the second call's — and GetProject reflects
only it; the same replacement (not accumulation) holds for ProvideScript,
in both variants.  The Nodup hypothesis is the dictionary well-formedness
of the scripts table, true of every reachable store. -/
theorem claim7_script_replaced :
    (∀ (st : V1.State) (pid topic1 topic2 : String),
      pid ∈ dkeys st.projects → (dkeys st.scripts).Nodup →
      dlookup pid
          (V1.generate_script (V1.generate_script st pid topic1).2 pid topic2).2.scripts =
        some (V1.templatedScript pid topic2) ∧
      countKey pid
          (V1.generate_script (V1.generate_script st pid topic1).2 pid topic2).2.scripts = 1 ∧
      Except.map V1.ProjectView.script
          (V1.get_project
            (V1.generate_script (V1.generate_script st pid topic1).2 pid topic2).2 pid).1 =
        Except.ok (some (V1.templatedScript pid topic2))) ∧
    (∀ (st : V1.State) (pid text1 text2 : String),
      pid ∈ dkeys st.projects → (dkeys st.scripts).Nodup →
      dlookup pid
          (V1.provide_script (V1.provide_script st pid text1).2 pid text2).2.scripts =
        some (V1.providedScript pid text2) ∧
      countKey pid
          (V1.provide_script (V1.provide_script st pid text1).2 pid text2).2.scripts = 1) ∧
    (∀ (st : V2.State) (pid : String) (tp1 tp2 : Option String),
      pid ∈ dkeys st.projects → (dkeys st.scripts).Nodup →
      ∃ s, (V2.generate_script (V2.generate_script st pid tp1).2 pid tp2).1 = Except.ok s ∧
        dlookup pid
            (V2.generate_script (V2.generate_script st pid tp1).2 pid tp2).2.scripts = some s ∧
        countKey pid
            (V2.generate_script (V2.generate_script st pid tp1).2 pid tp2).2.scripts = 1 ∧
        Except.map V2.ProjectView.script
            (V2.get_project
              (V2.generate_script (V2.generate_script st pid tp1).2 pid tp2).2 pid).1 =
          Except.ok (some s)) ∧
    (∀ (st : V2.State) (pid text1 text2 : String),
      pid ∈ dkeys st.projects → (dkeys st.scripts).Nodup →
      dlookup pid
          (V2.provide_script (V2.provide_script st pid text1).2 pid text2).2.scripts =
        some (V2.v2ProvidedScript pid text2) ∧
      countKey pid
          (V2.provide_script (V2.provide_script st pid text1).2 pid text2).2.scripts = 1) := by
  refine ⟨?_, ?_, ?_, ?_⟩
  · intro st pid topic1 topic2 hp hnd
    have hc : dcontains pid st.projects = true := (dcontains_iff_mem_dkeys _ _).2 hp
    obtain ⟨p, hpp⟩ := exists_dlookup_of_mem hp
    refine ⟨?_, ?_, ?_⟩
    · simp [V1.generate_script, hc]
    · simp only [V1.generate_script, hc, if_true]
      exact countKey_dinsert_of_nodup _ (nodup_dkeys_dinsert _ hnd)
    · simp [V1.generate_script, hc, V1.get_project, hpp, Except.map]
  · intro st pid text1 text2 hp hnd
    have hc : dcontains pid st.projects = true := (dcontains_iff_mem_dkeys _ _).2 hp
    refine ⟨?_, ?_⟩
    · simp [V1.provide_script, hc]
    · simp only [V1.provide_script, hc, if_true]
      exact countKey_dinsert_of_nodup _ (nodup_dkeys_dinsert _ hnd)
  · intro st pid tp1 tp2 hp hnd
    obtain ⟨p, hpp⟩ := exists_dlookup_of_mem hp
    refine ⟨V2.placeholderScript pid (V2.orStr tp2 p.topic), ?_, ?_, ?_, ?_⟩
    · simp [V2.generate_script, hpp]
    · simp [V2.generate_script, hpp]
    · simp only [V2.generate_script, hpp]
      exact countKey_dinsert_of_nodup _ (nodup_dkeys_dinsert _ hnd)
    · simp [V2.generate_script, hpp, V2.get_project, Except.map]
  · intro st pid text1 text2 hp hnd
    have hc : dcontains pid st.projects = true := (dcontains_iff_mem_dkeys _ _).2 hp
    refine ⟨?_, ?_⟩
    · simp [V2.provide_script, hc]
    · simp only [V2.provide_script, hc, if_true]
      exact countKey_dinsert_of_nodup _ (nodup_dkeys_dinsert _ hnd)

/-- Witness for C7: all four replacement facts at one-project stores. -/
theorem claim7_witness :
    ("p" ∈ dkeys exSt1.projects ∧ (dkeys exSt1.scripts).Nodup ∧
     "proj_1" ∈ dkeys exSt2.projects ∧ (dkeys exSt2.scripts).Nodup) ∧
    (dlookup "p" (V1.generate_script (V1.generate_script exSt1 "p" "A").2 "p" "B").2.scripts =
       some (V1.templatedScript "p" "B") ∧
     countKey "p"
         (V1.generate_script (V1.generate_script exSt1 "p" "A").2 "p" "B").2.scripts = 1 ∧
     Except.map V1.ProjectView.script
         (V1.get_project
           (V1.generate_script (V1.generate_script exSt1 "p" "A").2 "p" "B").2 "p").1 =
       Except.ok (some (V1.templatedScript "p" "B"))) ∧
    (dlookup "p" (V1.provide_script (V1.provide_script exSt1 "p" "x").2 "p" "y").2.scripts =
       some (V1.providedScript "p" "y") ∧
     countKey "p"
         (V1.provide_script (V1.provide_script exSt1 "p" "x").2 "p" "y").2.scripts = 1) ∧
    (∃ s,
      (V2.generate_script (V2.generate_script exSt2 "proj_1" (some "A")).2 "proj_1"
          (some "B")).1 = Except.ok s ∧
      dlookup "proj_1"
          (V2.generate_script (V2.generate_script exSt2 "proj_1" (some "A")).2 "proj_1"
            (some "B")).2.scripts = some s ∧
      countKey "proj_1"
          (V2.generate_script (V2.generate_script exSt2 "proj_1" (some "A")).2 "proj_1"
            (some "B")).2.scripts = 1 ∧
      Except.map V2.ProjectView.script
          (V2.get_project
            (V2.generate_script (V2.generate_script exSt2 "proj_1" (some "A")).2 "proj_1"
              (some "B")).2 "proj_1").1 = Except.ok (some s)) ∧
    (dlookup "proj_1"
        (V2.provide_script (V2.provide_script exSt2 "proj_1" "x").2 "proj_1" "y").2.scripts =
       some (V2.v2ProvidedScript "proj_1" "y") ∧
     countKey "proj_1"
         (V2.provide_script (V2.provide_script exSt2 "proj_1" "x").2 "proj_1" "y").2.scripts =
       1) :=
  ⟨⟨by decide, by decide, by decide, by decide⟩,
   claim7_script_replaced.1 exSt1 "p" "A" "B" (by decide) (by decide),
   claim7_script_replaced.2.1 exSt1 "p" "x" "y" (by decide) (by decide),
   claim7_script_replaced.2.2.1 exSt2 "proj_1" (some "A") (some "B") (by decide) (by decide),
   claim7_script_replaced.2.2.2 exSt2 "proj_1" "x" "y" (by decide) (by decide)⟩

/-- C8: calling GenerateImageAssets twice on an existing project appends
both calls' asset batches in insertion order: the stored list is the prior
list followed by the first batch then the second, the total count is the
prior count plus the two calls' returned counts, and no other project's
asset list changes. -/
theorem claim8_assets_append :
    (∀ (st : V1.State) (pid : String) (f1 f2 : Option String)
       (s1 s2 : List String → Nat → List String),
      pid ∈ dkeys st.projects →
      ∃ b1 b2 : List V1.MediaAsset,
        (V1.ai_images st pid f1 s1).1 = Except.ok b1.length ∧
        dlookupD pid (V1.ai_images st pid f1 s1).2.assets [] =
          dlookupD pid st.assets [] ++ b1 ∧
        (V1.ai_images (V1.ai_images st pid f1 s1).2 pid f2 s2).1 = Except.ok b2.length ∧
        dlookupD pid (V1.ai_images (V1.ai_images st pid f1 s1).2 pid f2 s2).2.assets [] =
          dlookupD pid st.assets [] ++ b1 ++ b2 ∧
        (dlookupD pid (V1.ai_images (V1.ai_images st pid f1 s1).2 pid f2 s2).2.assets
            []).length =
          (dlookupD pid st.assets []).length + b1.length + b2.length ∧
        (∀ q, q ≠ pid →
          dlookup q (V1.ai_images (V1.ai_images st pid f1 s1).2 pid f2 s2).2.assets =
            dlookup q st.assets)) ∧
    (∀ (st : V2.State) (pid : String) (p1 p2 : Option (List String)) (f1 f2 : Option String),
      pid ∈ dkeys st.projects →
      ∃ b1 b2 : List V2.MediaAsset,
        (V2.generate_ai_images st pid p1 f1).1 = Except.ok b1 ∧
        dlookupD pid (V2.generate_ai_images st pid p1 f1).2.assets [] =
          dlookupD pid st.assets [] ++ b1 ∧
        (V2.generate_ai_images (V2.generate_ai_images st pid p1 f1).2 pid p2 f2).1 =
          Except.ok b2 ∧
        dlookupD pid
            (V2.generate_ai_images (V2.generate_ai_images st pid p1 f1).2 pid p2 f2).2.assets
            [] = dlookupD pid st.assets [] ++ b1 ++ b2 ∧
        (dlookupD pid
            (V2.generate_ai_images (V2.generate_ai_images st pid p1 f1).2 pid p2 f2).2.assets
            []).length =
          (dlookupD pid st.assets []).length + b1.length + b2.length ∧
        (∀ q, q ≠ pid →
          dlookup q
              (V2.generate_ai_images (V2.generate_ai_images st pid p1 f1).2 pid p2
                f2).2.assets = dlookup q st.assets)) := by
  constructor
  · intro st pid f1 f2 s1 s2 hp
    have hc : dcontains pid st.projects = true := (dcontains_iff_mem_dkeys _ _).2 hp
    refine ⟨V1.imageBatch pid (f1.getD "generic")
        (s1 (V1.poolFor (f1.getD "generic")) (min 3 (V1.poolFor (f1.getD "generic")).length)),
      V1.imageBatch pid (f2.getD "generic")
        (s2 (V1.poolFor (f2.getD "generic")) (min 3 (V1.poolFor (f2.getD "generic")).length)),
      ?_, ?_, ?_, ?_, ?_, ?_⟩
    · simp [V1.ai_images, hc]
    · simp [V1.ai_images, hc]
    · simp [V1.ai_images, hc]
    · simp [V1.ai_images, hc, List.append_assoc]
    · simp only [V1.ai_images, hc, if_true]
      simp [Nat.add_assoc]
    · intro q hq
      simp only [V1.ai_images, hc, if_true]
      rw [dlookup_dinsert_ne _ _ hq, dlookup_dinsert_ne _ _ hq]
  · intro st pid p1 p2 f1 f2 hp
    have hc : dcontains pid st.projects = true := (dcontains_iff_mem_dkeys _ _).2 hp
    refine ⟨V2.imageBatch pid (V2.orList p1 (V2.defaultPrompts (V2.orStr f1 "generic"))),
      V2.imageBatch pid (V2.orList p2 (V2.defaultPrompts (V2.orStr f2 "generic"))),
      ?_, ?_, ?_, ?_, ?_, ?_⟩
    · simp [V2.generate_ai_images, hc]
    · simp [V2.generate_ai_images, hc]
    · simp [V2.generate_ai_images, hc]
    · simp [V2.generate_ai_images, hc, List.append_assoc]
    · simp only [V2.generate_ai_images, hc, if_true]
      simp [Nat.add_assoc]
    · intro q hq
      simp only [V2.generate_ai_images, hc, if_true]
      rw [dlookup_dinsert_ne _ _ hq, dlookup_dinsert_ne _ _ hq]

/-- Witness for C8: both parts applied at the one-project stores, with the
take-first selection for the sampler and explicit prompts for the backend. -/
theorem claim8_witness :
    ("p" ∈ dkeys exSt1.projects ∧ "proj_1" ∈ dkeys exSt2.projects) ∧
    (∃ b1 b2 : List V1.MediaAsset,
      (V1.ai_images exSt1 "p" (some "harry_potter") takeSample).1 = Except.ok b1.length ∧
      dlookupD "p" (V1.ai_images exSt1 "p" (some "harry_potter") takeSample).2.assets [] =
        dlookupD "p" exSt1.assets [] ++ b1 ∧
      (V1.ai_images (V1.ai_images exSt1 "p" (some "harry_potter") takeSample).2 "p" none
          takeSample).1 = Except.ok b2.length ∧
      dlookupD "p"
          (V1.ai_images (V1.ai_images exSt1 "p" (some "harry_potter") takeSample).2 "p" none
            takeSample).2.assets [] = dlookupD "p" exSt1.assets [] ++ b1 ++ b2 ∧
      (dlookupD "p"
          (V1.ai_images (V1.ai_images exSt1 "p" (some "harry_potter") takeSample).2 "p" none
            takeSample).2.assets []).length =
        (dlookupD "p" exSt1.assets []).length + b1.length + b2.length ∧
      (∀ q, q ≠ "p" →
        dlookup q
            (V1.ai_images (V1.ai_images exSt1 "p" (some "harry_potter") takeSample).2 "p" none
              takeSample).2.assets = dlookup q exSt1.assets)) ∧
    (∃ b1 b2 : List V2.MediaAsset,
      (V2.generate_ai_images exSt2 "proj_1" (some ["p1"]) none).1 = Except.ok b1 ∧
      dlookupD "proj_1" (V2.generate_ai_images exSt2 "proj_1" (some ["p1"]) none).2.assets [] =
        dlookupD "proj_1" exSt2.assets [] ++ b1 ∧
      (V2.generate_ai_images (V2.generate_ai_images exSt2 "proj_1" (some ["p1"]) none).2
          "proj_1" none (some "game_of_thrones")).1 = Except.ok b2 ∧
      dlookupD "proj_1"
          (V2.generate_ai_images (V2.generate_ai_images exSt2 "proj_1" (some ["p1"]) none).2
            "proj_1" none (some "game_of_thrones")).2.assets [] =
        dlookupD "proj_1" exSt2.assets [] ++ b1 ++ b2 ∧
      (dlookupD "proj_1"
          (V2.generate_ai_images (V2.generate_ai_images exSt2 "proj_1" (some ["p1"]) none).2
            "proj_1" none (some "game_of_thrones")).2.assets []).length =
        (dlookupD "proj_1" exSt2.assets []).length + b1.length + b2.length ∧
      (∀ q, q ≠ "proj_1" →
        dlookup q
            (V2.generate_ai_images (V2.generate_ai_images exSt2 "proj_1" (some ["p1"]) none).2
              "proj_1" none (some "game_of_thrones")).2.assets = dlookup q exSt2.assets)) :=
  ⟨⟨by decide, by decide⟩,
   claim8_assets_append.1 exSt1 "p" (some "harry_potter") none takeSample takeSample (by decide),
   claim8_assets_append.2 exSt2 "proj_1" (some ["p1"]) none none (some "game_of_thrones")
     (by decide)⟩

/-- A V2 store holding project `"proj_1"` together with a generated script,
so the strict voice precondition is satisfied. -/
def exSt2s : V2.State := (V2.generate_script exSt2 "proj_1" (some "T")).2

/-- C9 (amended): GenerateVoiceAsset appends exactly one `voice` asset with
the variant's fixed placeholder URL.  In `src/main.py` the metadata records
voice `female_neutral` and language `en-US` (no voice can be requested
there); in the backend variant the requested voice identifier is ignored
and the stored asset carries no metadata at all. -/
theorem claim9_amended :
    (∀ (st : V1.State) (pid : String), pid ∈ dkeys st.projects →
      (V1.voice st pid).1 = Except.ok () ∧
      dlookupD pid (V1.voice st pid).2.assets [] =
        dlookupD pid st.assets [] ++
          [⟨pid, "voice", V1.ttsUrl, [("voice", "female_neutral"), ("lang", "en-US")]⟩]) ∧
    (∀ (st : V2.State) (pid : String) (voice? : Option String),
      pid ∈ dkeys st.projects → pid ∈ dkeys st.scripts →
      (V2.generate_voiceover st pid voice?).1 =
        Except.ok (⟨pid, "voice", V2.voiceUrl, none, none⟩ : V2.MediaAsset) ∧
      dlookupD pid (V2.generate_voiceover st pid voice?).2.assets [] =
        dlookupD pid st.assets [] ++ [⟨pid, "voice", V2.voiceUrl, none, none⟩]) := by
  constructor
  · intro st pid hp
    have hc : dcontains pid st.projects = true := (dcontains_iff_mem_dkeys _ _).2 hp
    exact ⟨by simp [V1.voice, hc], by simp [V1.voice, hc]⟩
  · intro st pid voice? hp hs
    have hc : dcontains pid st.projects = true := (dcontains_iff_mem_dkeys _ _).2 hp
    have hcs : dcontains pid st.scripts = true := (dcontains_iff_mem_dkeys _ _).2 hs
    exact ⟨by simp [V2.generate_voiceover, hc, hcs], by simp [V2.generate_voiceover, hc, hcs]⟩

set_option maxRecDepth 100000 in
/-- Witness for C9 (amended): both parts at concrete stores, the backend one
holding a script. -/
theorem claim9_witness :
    ("p" ∈ dkeys exSt1.projects ∧
     "proj_1" ∈ dkeys exSt2s.projects ∧ "proj_1" ∈ dkeys exSt2s.scripts) ∧
    ((V1.voice exSt1 "p").1 = Except.ok () ∧
     dlookupD "p" (V1.voice exSt1 "p").2.assets [] =
       dlookupD "p" exSt1.assets [] ++
         [⟨"p", "voice", V1.ttsUrl, [("voice", "female_neutral"), ("lang", "en-US")]⟩]) ∧
    ((V2.generate_voiceover exSt2s "proj_1" (some "female_neutral")).1 =
       Except.ok (⟨"proj_1", "voice", V2.voiceUrl, none, none⟩ : V2.MediaAsset) ∧
     dlookupD "proj_1"
         (V2.generate_voiceover exSt2s "proj_1" (some "female_neutral")).2.assets [] =
       dlookupD "proj_1" exSt2s.assets [] ++ [⟨"proj_1", "voice", V2.voiceUrl, none, none⟩]) :=
  ⟨⟨by decide, by decide, by decide⟩,
   claim9_amended.1 exSt1 "p" (by decide),
   claim9_amended.2 exSt2s "proj_1" (some "female_neutral") (by decide) (by decide)⟩

set_option maxRecDepth 100000 in
/-- C9 is false as stated for the backend variant: the voice asset appended
for an explicit requested voice has `meta = none`, so no metadata records
the requested voice identifier or a language tag. -/
theorem claim9_counterexample :
    (V2.generate_voiceover exSt2s "proj_1" (some "custom_voice")).1 =
      Except.ok (⟨"proj_1", "voice", V2.voiceUrl, none, none⟩ : V2.MediaAsset) ∧
    dlookupD "proj_1"
        (V2.generate_voiceover exSt2s "proj_1" (some "custom_voice")).2.assets [] =
      [(⟨"proj_1", "voice", V2.voiceUrl, none, none⟩ : V2.MediaAsset)] ∧
    ¬ ∃ m, (⟨"proj_1", "voice", V2.voiceUrl, none, none⟩ : V2.MediaAsset).meta = some m := by
  refine ⟨by decide, by decide, ?_⟩
  rintro ⟨m, hm⟩
  exact Option.noConfusion hm

/-- C10: GetProject is read-only in both variants: for every store and every
project id, known or unknown, the call hands the store back unchanged — in
particular querying a project with no assets does not insert an empty asset
list into the assets table (the handlers read with `ASSETS.get(pid, [])`,
never `setdefault`). -/
theorem claim10_get_project_readonly :
    (∀ (st : V1.State) (pid : String), (V1.get_project st pid).2 = st) ∧
    (∀ (st : V2.State) (pid : String), (V2.get_project st pid).2 = st) := by
  constructor
  · intro st pid
    cases hl : dlookup pid st.projects <;> simp [V1.get_project, hl]
  · intro st pid
    cases hl : dlookup pid st.projects <;> simp [V2.get_project, hl]
